import Mathlib

/-!
Shallow embedding of the cart store of the E-Storefront-Web repository
(store/cartStore.ts, as documented in docs/technologies/ZUSTAND.md and
docs/technologies/STATE_MANAGEMENT.md), together with proofs of the
specification claims about it.

JavaScript numbers are modelled as integers: every claim under study is
structural or linear-arithmetical, so no property depends on the float
representation of price or quantity.
-/

namespace EStorefront

/-- A cart line item, mirroring the CartItem interface of store/cartStore.ts:
id, name, price, quantity, image. -/
structure CartItem where
  id : String
  name : String
  price : Int
  quantity : Int
  image : String
  deriving DecidableEq, Repr

/-- The cart store state: the items list (the only data field of CartStore). -/
structure CartState where
  items : List CartItem
  deriving DecidableEq, Repr

/-- The initial store state: items is the empty list. -/
def emptyCart : CartState := ⟨[]⟩

/-- addItem from store/cartStore.ts: look for an existing line with the same
id; if found, map over the items adding the given quantity to every line
whose id matches; otherwise append the item at the end. -/
def addItem (s : CartState) (item : CartItem) : CartState :=
  match s.items.find? (fun i => i.id == item.id) with
  | some _ =>
      ⟨s.items.map (fun i =>
        if i.id == item.id then { i with quantity := i.quantity + item.quantity } else i)⟩
  | none => ⟨s.items ++ [item]⟩

/-- removeItem from store/cartStore.ts: keep exactly the lines whose id
differs from the given id. -/
def removeItem (s : CartState) (id : String) : CartState :=
  ⟨s.items.filter (fun i => i.id != id)⟩

/-- updateQuantity from store/cartStore.ts: for a positive quantity, set the
quantity of every line whose id matches; otherwise drop those lines. -/
def updateQuantity (s : CartState) (id : String) (quantity : Int) : CartState :=
  ⟨if quantity > 0
    then s.items.map (fun i => if i.id == id then { i with quantity := quantity } else i)
    else s.items.filter (fun i => i.id != id)⟩

/-- clearCart from store/cartStore.ts: reset items to the empty list. -/
def clearCart (_s : CartState) : CartState := ⟨[]⟩

/-- getTotalItems from store/cartStore.ts: left fold accumulating the
quantities, starting from 0. -/
def getTotalItems (s : CartState) : Int :=
  s.items.foldl (fun total item => total + item.quantity) 0

/-- getTotalPrice from store/cartStore.ts: left fold accumulating
price × quantity, starting from 0. -/
def getTotalPrice (s : CartState) : Int :=
  s.items.foldl (fun total item => total + item.price * item.quantity) 0

/-- One user-visible mutation of the cart store. -/
inductive CartOp where
  | add (item : CartItem)
  | remove (id : String)
  | update (id : String) (quantity : Int)
  | clear
  deriving DecidableEq, Repr

/-- Interpret one mutation on a cart state. -/
def applyOp (op : CartOp) (s : CartState) : CartState :=
  match op with
  | .add item => addItem s item
  | .remove id => removeItem s id
  | .update id q => updateQuantity s id q
  | .clear => clearCart s

/-- Run a sequence of mutations from a starting state. -/
def runOps (ops : List CartOp) (s : CartState) : CartState :=
  ops.foldl (fun t op => applyOp op t) s

example : addItem emptyCart ⟨"a", "n", 5, 2, "img"⟩ = ⟨[⟨"a", "n", 5, 2, "img"⟩]⟩ := by decide

example :
    addItem ⟨[⟨"a", "n", 5, 2, "img"⟩]⟩ ⟨"a", "x", 7, 3, "y"⟩ =
      ⟨[⟨"a", "n", 5, 5, "img"⟩]⟩ := by decide

example : getTotalPrice ⟨[⟨"a", "n", 5, 2, "img"⟩, ⟨"b", "m", 3, 4, "j"⟩]⟩ = 22 := by decide

/-! ### Branch characterizations of addItem -/

/-- When some line already carries the id of the added item, addItem takes the
merge branch of the match. -/
theorem addItem_eq_merge (s : CartState) (item : CartItem)
    (h : ∃ i ∈ s.items, i.id = item.id) :
    addItem s item =
      ⟨s.items.map (fun i =>
        if i.id == item.id then { i with quantity := i.quantity + item.quantity } else i)⟩ := by
  have hs : (s.items.find? (fun i => i.id == item.id)).isSome = true := by
    rw [List.find?_isSome]
    obtain ⟨i, hi, hid⟩ := h
    exact ⟨i, hi, by simpa using hid⟩
  obtain ⟨w, hw⟩ := Option.isSome_iff_exists.mp hs
  simp [addItem, hw]

/-- When no line carries the id of the added item, addItem takes the append
branch of the match. -/
theorem addItem_eq_append (s : CartState) (item : CartItem)
    (h : ∀ i ∈ s.items, i.id ≠ item.id) :
    addItem s item = ⟨s.items ++ [item]⟩ := by
  have hn : s.items.find? (fun i => i.id == item.id) = none := by
    rw [List.find?_eq_none]
    intro i hi
    simpa using h i hi
  simp [addItem, hn]

/-! ### The two folds as sums -/

/-- The quantity fold of getTotalItems, with an arbitrary accumulator, is the
accumulator plus the sum of the quantities. -/
theorem foldl_quantity (l : List CartItem) (a : Int) :
    l.foldl (fun total item => total + item.quantity) a
      = a + (l.map (fun i => i.quantity)).sum := by
  induction l generalizing a with
  | nil => simp
  | cons x l ih => simp [ih, add_assoc]

/-- The price × quantity fold of getTotalPrice, with an arbitrary accumulator,
is the accumulator plus the sum of the products. -/
theorem foldl_price (l : List CartItem) (a : Int) :
    l.foldl (fun total item => total + item.price * item.quantity) a
      = a + (l.map (fun i => i.price * i.quantity)).sum := by
  induction l generalizing a with
  | nil => simp
  | cons x l ih => simp [ih, add_assoc]

/-- getTotalItems is the sum of the quantities of the items list. -/
theorem getTotalItems_eq_sum (s : CartState) :
    getTotalItems s = (s.items.map (fun i => i.quantity)).sum := by
  simpa [getTotalItems] using foldl_quantity s.items 0

/-- getTotalPrice is the sum of price × quantity over the items list. -/
theorem getTotalPrice_eq_sum (s : CartState) :
    getTotalPrice s = (s.items.map (fun i => i.price * i.quantity)).sum := by
  simpa [getTotalPrice] using foldl_price s.items 0

/-! ### Claim theorems -/

/-- Claim C2: for every cart state, getTotalPrice returns exactly the sum over
all line items of price × quantity, and in particular returns 0 for the empty
cart. -/
theorem getTotalPrice_spec :
    (∀ s : CartState, getTotalPrice s = (s.items.map (fun i => i.price * i.quantity)).sum) ∧
    getTotalPrice emptyCart = 0 :=
  ⟨getTotalPrice_eq_sum, rfl⟩

/-- Claim C6: for every cart state, getTotalItems returns the sum of the
quantities of all line items, and returns 0 for the empty cart. -/
theorem getTotalItems_spec :
    (∀ s : CartState, getTotalItems s = (s.items.map (fun i => i.quantity)).sum) ∧
    getTotalItems emptyCart = 0 :=
  ⟨getTotalItems_eq_sum, rfl⟩

/-- Claim C5: on a cart containing no line with the id of the added item, addItem
appends the item as a new line at the end, leaving every existing line
unchanged and in its original order. -/
theorem addItem_append_spec (s : CartState) (item : CartItem)
    (h : ∀ i ∈ s.items, i.id ≠ item.id) :
    addItem s item = ⟨s.items ++ [item]⟩ :=
  addItem_eq_append s item h

/-- Witness for C5 at a concrete cart and item. -/
theorem addItem_append_spec_witness :
    addItem ⟨[⟨"b", "bn", 2, 1, "bi"⟩]⟩ ⟨"a", "an", 3, 2, "ai"⟩ =
      ⟨[⟨"b", "bn", 2, 1, "bi"⟩, ⟨"a", "an", 3, 2, "ai"⟩]⟩ :=
  addItem_append_spec ⟨[⟨"b", "bn", 2, 1, "bi"⟩]⟩ ⟨"a", "an", 3, 2, "ai"⟩ (by decide)

/-- Claim C9: adding an item whose id is absent and then removing that id
returns the items list to exactly its original value, and removeItem is
idempotent. -/
theorem add_remove_cancel_spec :
    (∀ (s : CartState) (item : CartItem), (∀ i ∈ s.items, i.id ≠ item.id) →
      removeItem (addItem s item) item.id = s) ∧
    (∀ (s : CartState) (id : String), removeItem (removeItem s id) id = removeItem s id) := by
  constructor
  · intro s item h
    rw [addItem_eq_append s item h]
    simp only [removeItem]
    rw [List.filter_append]
    have h1 : s.items.filter (fun i => i.id != item.id) = s.items :=
      List.filter_eq_self.mpr (fun i hi => by simpa [bne_iff_ne] using h i hi)
    have h2 : [item].filter (fun i => i.id != item.id) = [] := by simp
    rw [h1, h2, List.append_nil]
  · intro s id
    simp [removeItem, List.filter_filter, Bool.and_self]

/-- Witness for C9 at a concrete cart, item and id. -/
theorem add_remove_cancel_spec_witness :
    removeItem (addItem ⟨[⟨"b", "bn", 2, 1, "bi"⟩]⟩ ⟨"a", "an", 3, 2, "ai"⟩) "a" =
      ⟨[⟨"b", "bn", 2, 1, "bi"⟩]⟩ :=
  add_remove_cancel_spec.1 ⟨[⟨"b", "bn", 2, 1, "bi"⟩]⟩ ⟨"a", "an", 3, 2, "ai"⟩ (by decide)

/-- Claim C1: when the id of the added item equals the id of an existing line,
addItem keeps the number of lines, gives every line whose id matches the sum
of its old quantity and the added quantity while leaving every other line
unchanged, and creates no second line with that id (the count of lines
carrying the id is unchanged). -/
theorem addItem_merge_spec (s : CartState) (item : CartItem)
    (h : ∃ i ∈ s.items, i.id = item.id) :
    (addItem s item).items.length = s.items.length ∧
    (∀ (j : Nat) (i : CartItem), s.items[j]? = some i →
      (i.id = item.id →
        (addItem s item).items[j]? = some { i with quantity := i.quantity + item.quantity }) ∧
      (i.id ≠ item.id → (addItem s item).items[j]? = some i)) ∧
    (addItem s item).items.countP (fun i => i.id == item.id)
      = s.items.countP (fun i => i.id == item.id) := by
  rw [addItem_eq_merge s item h]
  refine ⟨List.length_map _ _, ?_, ?_⟩
  · intro j i hj
    constructor
    · intro hid
      rw [List.getElem?_map, hj]
      simp [hid]
    · intro hid
      rw [List.getElem?_map, hj]
      simp [hid]
  · rw [List.countP_map]
    apply List.countP_congr
    intro x hx
    by_cases hxid : x.id = item.id <;> simp [Function.comp, hxid]

/-- Witness for C1 at a concrete cart and item. -/
theorem addItem_merge_spec_witness :
    (addItem ⟨[⟨"a", "n", 5, 2, "im"⟩]⟩ ⟨"a", "x", 7, 3, "y"⟩).items.length =
      ([⟨"a", "n", 5, 2, "im"⟩] : List CartItem).length :=
  (addItem_merge_spec ⟨[⟨"a", "n", 5, 2, "im"⟩]⟩ ⟨"a", "x", 7, 3, "y"⟩ (by decide)).1

/-- Claim C8: in the merge branch of addItem, every stored line keeps its id,
name, price and image; a matching line changes only its quantity, and a
non-matching line is kept exactly as it was, so the price snapshot of the
first add is retained and the fields of the newly passed item are ignored. -/
theorem addItem_merge_frame (s : CartState) (item : CartItem)
    (h : ∃ i ∈ s.items, i.id = item.id) :
    ∀ (j : Nat) (i : CartItem), s.items[j]? = some i →
      ∃ i2 : CartItem, (addItem s item).items[j]? = some i2 ∧
        i2.id = i.id ∧ i2.name = i.name ∧ i2.price = i.price ∧ i2.image = i.image ∧
        (i.id = item.id → i2.quantity = i.quantity + item.quantity) ∧
        (i.id ≠ item.id → i2 = i) := by
  rw [addItem_eq_merge s item h]
  intro j i hj
  by_cases hid : i.id = item.id
  · refine ⟨{ i with quantity := i.quantity + item.quantity }, ?_, rfl, rfl, rfl, rfl,
      fun _ => rfl, fun hc => absurd hid hc⟩
    rw [List.getElem?_map, hj]
    simp [hid]
  · refine ⟨i, ?_, rfl, rfl, rfl, rfl, fun hc => absurd hc hid, fun _ => rfl⟩
    rw [List.getElem?_map, hj]
    simp [hid]

/-- Witness for C8 at a concrete cart, item and index. -/
theorem addItem_merge_frame_witness :
    ∃ i2 : CartItem,
      (addItem ⟨[⟨"a", "n", 5, 2, "im"⟩]⟩ ⟨"a", "x", 7, 3, "y"⟩).items[0]? = some i2 ∧
      i2.id = "a" ∧ i2.name = "n" ∧ i2.price = 5 ∧ i2.image = "im" ∧
      ("a" = "a" → i2.quantity = 2 + 3) ∧ ("a" ≠ "a" → i2 = ⟨"a", "n", 5, 2, "im"⟩) :=
  addItem_merge_frame ⟨[⟨"a", "n", 5, 2, "im"⟩]⟩ ⟨"a", "x", 7, 3, "y"⟩ (by decide)
    0 ⟨"a", "n", 5, 2, "im"⟩ rfl

/-- Claim C4: updateQuantity with q ≤ 0 removes every line carrying the given
id and keeps membership of all other lines; with q > 0 it sets the quantity of
every line carrying the id to exactly q and keeps membership of all other
lines. -/
theorem updateQuantity_spec (s : CartState) (id : String) (q : Int) :
    (q ≤ 0 →
      (∀ i ∈ (updateQuantity s id q).items, i.id ≠ id) ∧
      (∀ i : CartItem, i.id ≠ id → (i ∈ (updateQuantity s id q).items ↔ i ∈ s.items))) ∧
    (0 < q →
      (∀ i ∈ (updateQuantity s id q).items, i.id = id → i.quantity = q) ∧
      (∀ i ∈ s.items, i.id = id → { i with quantity := q } ∈ (updateQuantity s id q).items) ∧
      (∀ i : CartItem, i.id ≠ id → (i ∈ (updateQuantity s id q).items ↔ i ∈ s.items))) := by
  constructor
  · intro hq
    have hbranch : updateQuantity s id q = ⟨s.items.filter (fun i => i.id != id)⟩ := by
      simp only [updateQuantity]
      rw [if_neg (not_lt.mpr hq)]
    rw [hbranch]
    constructor
    · intro i hi
      simpa [bne_iff_ne] using (List.mem_filter.mp hi).2
    · intro i hne
      constructor
      · intro hi
        exact (List.mem_filter.mp hi).1
      · intro hi
        exact List.mem_filter.mpr ⟨hi, by simpa [bne_iff_ne] using hne⟩
  · intro hq
    have hbranch : updateQuantity s id q =
        ⟨s.items.map (fun i => if i.id == id then { i with quantity := q } else i)⟩ := by
      simp only [updateQuantity]
      rw [if_pos hq]
    rw [hbranch]
    refine ⟨?_, ?_, ?_⟩
    · intro i hi hiid
      obtain ⟨x, hx, hfx⟩ := List.mem_map.mp hi
      by_cases hxid : x.id = id
      · rw [if_pos (by simpa using hxid)] at hfx
        rw [← hfx]
      · rw [if_neg (by simpa using hxid)] at hfx
        rw [hfx] at hxid
        exact absurd hiid hxid
    · intro i hi hiid
      exact List.mem_map.mpr ⟨i, hi, by simp [hiid]⟩
    · intro i hne
      constructor
      · intro hi
        obtain ⟨x, hx, hfx⟩ := List.mem_map.mp hi
        by_cases hxid : x.id = id
        · rw [if_pos (by simpa using hxid)] at hfx
          exfalso
          apply hne
          rw [← hfx]
          simpa using hxid
        · rw [if_neg (by simpa using hxid)] at hfx
          rw [← hfx]
          exact hx
      · intro hi
        refine List.mem_map.mpr ⟨i, hi, ?_⟩
        rw [if_neg (by simpa using hne)]

/-- Witness for C4 at a concrete cart, id and quantity. -/
theorem updateQuantity_spec_witness :
    (⟨"a", "n", 7, 5, "im"⟩ : CartItem) ∈
      (updateQuantity ⟨[⟨"a", "n", 7, 2, "im"⟩]⟩ "a" 5).items :=
  ((updateQuantity_spec ⟨[⟨"a", "n", 7, 2, "im"⟩]⟩ "a" 5).2 (by decide)).2.1
    ⟨"a", "n", 7, 2, "im"⟩ (by decide) rfl

/-! ### Reachability and the quantity invariant -/

/-- An operation whose argument respects the UI-level quantity validation:
an added item carries quantity at least 1; the other operations are
unrestricted. -/
def quantityOk (op : CartOp) : Bool :=
  match op with
  | .add item => decide (1 ≤ item.quantity)
  | _ => true

/-- One step preserves the all-quantities-positive invariant, provided an
added item carries a positive quantity. -/
theorem applyOp_preserves_quantity (s : CartState) (op : CartOp)
    (hs : ∀ i ∈ s.items, 1 ≤ i.quantity) (hop : quantityOk op = true) :
    ∀ i ∈ (applyOp op s).items, 1 ≤ i.quantity := by
  cases op with
  | add item =>
    have hitem : 1 ≤ item.quantity := by simpa [quantityOk] using hop
    by_cases h : ∃ i ∈ s.items, i.id = item.id
    · simp only [applyOp]
      rw [addItem_eq_merge s item h]
      intro i hi
      obtain ⟨x, hx, hfx⟩ := List.mem_map.mp hi
      by_cases hxid : x.id = item.id
      · rw [if_pos (by simpa using hxid)] at hfx
        rw [← hfx]
        have hxq := hs x hx
        show 1 ≤ x.quantity + item.quantity
        omega
      · rw [if_neg (by simpa using hxid)] at hfx
        rw [← hfx]
        exact hs x hx
    · push_neg at h
      simp only [applyOp]
      rw [addItem_eq_append s item h]
      intro i hi
      rcases List.mem_append.mp hi with h1 | h1
      · exact hs i h1
      · rw [List.mem_singleton.mp h1]
        exact hitem
  | remove id =>
    intro i hi
    simp only [applyOp, removeItem] at hi
    exact hs i (List.mem_filter.mp hi).1
  | update id q =>
    by_cases hq : q > 0
    · simp only [applyOp, updateQuantity]
      rw [if_pos hq]
      intro i hi
      obtain ⟨x, hx, hfx⟩ := List.mem_map.mp hi
      by_cases hxid : x.id = id
      · rw [if_pos (by simpa using hxid)] at hfx
        rw [← hfx]
        show 1 ≤ q
        omega
      · rw [if_neg (by simpa using hxid)] at hfx
        rw [← hfx]
        exact hs x hx
    · simp only [applyOp, updateQuantity]
      rw [if_neg hq]
      intro i hi
      exact hs i (List.mem_filter.mp hi).1
  | clear =>
    intro i hi
    simp [applyOp, clearCart] at hi

/-- Running any sequence of quantity-respecting operations preserves the
all-quantities-positive invariant. -/
theorem runOps_preserves_quantity (ops : List CartOp) (s : CartState)
    (hs : ∀ i ∈ s.items, 1 ≤ i.quantity) (hops : ∀ op ∈ ops, quantityOk op = true) :
    ∀ i ∈ (runOps ops s).items, 1 ≤ i.quantity := by
  induction ops generalizing s with
  | nil => simpa [runOps] using hs
  | cons op ops ih =>
    have h1 := applyOp_preserves_quantity s op hs (hops op (by simp))
    have h2 : ∀ o ∈ ops, quantityOk o = true := fun o ho => hops o (by simp [ho])
    simpa [runOps] using ih (applyOp op s) h1 h2

/-- Counterexample to C3 as stated: addItem performs no quantity validation,
so adding an item with quantity 0 to the empty cart reaches a state holding a
line with quantity 0 < 1. -/
theorem cart_quantity_invariant_cex :
    ∃ i ∈ (runOps [CartOp.add ⟨"a", "n", 1, 0, "im"⟩] emptyCart).items, i.quantity < 1 := by
  decide

/-- Claim C3 (amended): every cart state reachable from the empty cart by a
sequence of addItem, removeItem, updateQuantity and clearCart calls in which
every addItem argument has quantity ≥ 1 has only line items of quantity ≥ 1. -/
theorem cart_quantity_invariant (ops : List CartOp)
    (hops : ∀ op ∈ ops, quantityOk op = true) :
    ∀ i ∈ (runOps ops emptyCart).items, 1 ≤ i.quantity :=
  runOps_preserves_quantity ops emptyCart (by simp [emptyCart]) hops

/-- Witness for the amended C3 at a concrete operation sequence. -/
theorem cart_quantity_invariant_witness :
    1 ≤ (⟨"a", "n", 2, 3, "im"⟩ : CartItem).quantity :=
  cart_quantity_invariant [CartOp.add ⟨"a", "n", 2, 3, "im"⟩] (by decide)
    ⟨"a", "n", 2, 3, "im"⟩ (by decide)

/-! ### Totality of the operations -/

/-- The branch structure of the cart mutations, one constructor per source
branch: merge or append for addItem, the filter of removeItem, the positive
and non-positive branches of updateQuantity, and clearCart. -/
inductive CartStep : CartState → CartOp → CartState → Prop where
  | addExisting (s : CartState) (item : CartItem)
      (h : (s.items.find? (fun i => i.id == item.id)).isSome = true) :
      CartStep s (CartOp.add item)
        ⟨s.items.map (fun i =>
          if i.id == item.id then { i with quantity := i.quantity + item.quantity } else i)⟩
  | addNew (s : CartState) (item : CartItem)
      (h : s.items.find? (fun i => i.id == item.id) = none) :
      CartStep s (CartOp.add item) ⟨s.items ++ [item]⟩
  | removeLine (s : CartState) (id : String) :
      CartStep s (CartOp.remove id) ⟨s.items.filter (fun i => i.id != id)⟩
  | updatePos (s : CartState) (id : String) (q : Int) (h : 0 < q) :
      CartStep s (CartOp.update id q)
        ⟨s.items.map (fun i => if i.id == id then { i with quantity := q } else i)⟩
  | updateNonpos (s : CartState) (id : String) (q : Int) (h : q ≤ 0) :
      CartStep s (CartOp.update id q) ⟨s.items.filter (fun i => i.id != id)⟩
  | clearAll (s : CartState) : CartStep s CartOp.clear ⟨[]⟩

/-- Claim C7: every cart store operation is total on every items list: each
mutation takes exactly one branch of CartStep (totality and determinism, with
no error branch), and the two derived totals are defined on every state. -/
theorem cart_ops_total :
    (∀ (s : CartState) (op : CartOp), CartStep s op (applyOp op s)) ∧
    (∀ (s : CartState) (op : CartOp) (t₁ t₂ : CartState),
      CartStep s op t₁ → CartStep s op t₂ → t₁ = t₂) ∧
    (∀ s : CartState, ∃ (n m : Int), getTotalItems s = n ∧ getTotalPrice s = m) := by
  refine ⟨?_, ?_, fun s => ⟨getTotalItems s, getTotalPrice s, rfl, rfl⟩⟩
  · intro s op
    cases op with
    | add item =>
      cases hf : s.items.find? (fun i => i.id == item.id) with
      | some w =>
        have happ : applyOp (CartOp.add item) s =
            ⟨s.items.map (fun i =>
              if i.id == item.id then { i with quantity := i.quantity + item.quantity }
              else i)⟩ := by
          simp [applyOp, addItem, hf]
        rw [happ]
        exact CartStep.addExisting s item (by rw [hf]; rfl)
      | none =>
        have happ : applyOp (CartOp.add item) s = ⟨s.items ++ [item]⟩ := by
          simp [applyOp, addItem, hf]
        rw [happ]
        exact CartStep.addNew s item hf
    | remove id => exact CartStep.removeLine s id
    | update id q =>
      by_cases hq : q > 0
      · have happ : applyOp (CartOp.update id q) s =
            ⟨s.items.map (fun i => if i.id == id then { i with quantity := q } else i)⟩ := by
          simp only [applyOp, updateQuantity]
          rw [if_pos hq]
        rw [happ]
        exact CartStep.updatePos s id q hq
      · have happ : applyOp (CartOp.update id q) s =
            ⟨s.items.filter (fun i => i.id != id)⟩ := by
          simp only [applyOp, updateQuantity]
          rw [if_neg hq]
        rw [happ]
        exact CartStep.updateNonpos s id q (by omega)
    | clear => exact CartStep.clearAll s
  · intro s op t₁ t₂ h₁ h₂
    cases h₁ with
    | addExisting item hf₁ =>
      cases h₂ with
      | addExisting _ _ => rfl
      | addNew _ hf₂ => simp [hf₂] at hf₁
    | addNew item hf₁ =>
      cases h₂ with
      | addExisting _ hf₂ => simp [hf₁] at hf₂
      | addNew _ _ => rfl
    | removeLine id =>
      cases h₂ with
      | removeLine _ => rfl
    | updatePos id q hq₁ =>
      cases h₂ with
      | updatePos _ _ _ => rfl
      | updateNonpos _ _ hq₂ => omega
    | updateNonpos id q hq₁ =>
      cases h₂ with
      | updatePos _ _ hq₂ => omega
      | updateNonpos _ _ _ => rfl
    | clearAll =>
      cases h₂ with
      | clearAll => rfl

/-- Witness for C7 at a concrete state and operation. -/
theorem cart_ops_total_witness :
    CartStep emptyCart (CartOp.update "a" 1) (updateQuantity emptyCart "a" 1) :=
  cart_ops_total.1 emptyCart (CartOp.update "a" 1)

/-! ### getTotalItems across addItem -/

/-- getTotalItems of a literal items list is the sum of its quantities. -/
theorem getTotalItems_mk (l : List CartItem) :
    getTotalItems ⟨l⟩ = (l.map (fun i => i.quantity)).sum := by
  simpa [getTotalItems] using foldl_quantity l 0

/-- Adding d to the quantity of every line satisfying p raises the quantity
sum by d times the number of such lines. -/
theorem sum_quantity_map_add (d : Int) (p : CartItem → Bool) (l : List CartItem) :
    ((l.map (fun i => if p i then { i with quantity := i.quantity + d } else i)).map
        (fun i => i.quantity)).sum
      = (l.map (fun i => i.quantity)).sum + (l.countP p : Int) * d := by
  induction l with
  | nil => simp
  | cons x l ih =>
    by_cases hx : p x
    · simp only [List.map_cons, List.sum_cons, ih, List.countP_cons, hx, if_true]
      push_cast
      ring
    · simp only [List.map_cons, List.sum_cons, ih, List.countP_cons, hx, if_false]
      push_cast
      ring

/-- Counterexample to C10 as stated: on a cart already holding two lines with
the same id, the merge branch raises both quantities, so the item total grows
by twice the added quantity. -/
theorem getTotalItems_addItem_cex :
    getTotalItems (addItem ⟨[⟨"a", "n", 1, 1, "i1"⟩, ⟨"a", "m", 2, 1, "i2"⟩]⟩
        ⟨"a", "x", 3, 1, "i3"⟩)
      ≠ getTotalItems ⟨[⟨"a", "n", 1, 1, "i1"⟩, ⟨"a", "m", 2, 1, "i2"⟩]⟩
          + (⟨"a", "x", 3, 1, "i3"⟩ : CartItem).quantity := by
  decide

/-- Claim C10 (amended): on a cart in which at most one line carries the added
id of the added item, getTotalItems after addItem equals getTotalItems before plus the
added quantity, in both the merge and the append branch. -/
theorem getTotalItems_addItem (s : CartState) (item : CartItem)
    (h : s.items.countP (fun i => i.id == item.id) ≤ 1) :
    getTotalItems (addItem s item) = getTotalItems s + item.quantity := by
  by_cases hex : ∃ i ∈ s.items, i.id = item.id
  · have hpos : 0 < s.items.countP (fun i => i.id == item.id) := by
      rw [List.countP_pos_iff]
      obtain ⟨i, hi, hid⟩ := hex
      exact ⟨i, hi, by simpa using hid⟩
    have hone : s.items.countP (fun i => i.id == item.id) = 1 := le_antisymm h hpos
    rw [addItem_eq_merge s item hex, getTotalItems_mk, getTotalItems_eq_sum s,
      sum_quantity_map_add item.quantity (fun i => i.id == item.id) s.items, hone]
    push_cast
    ring
  · push_neg at hex
    rw [addItem_eq_append s item hex, getTotalItems_mk, getTotalItems_eq_sum s]
    simp

/-- Witness for the amended C10 at a concrete cart and item. -/
theorem getTotalItems_addItem_witness :
    getTotalItems (addItem ⟨[⟨"a", "n", 5, 2, "im"⟩]⟩ ⟨"a", "x", 7, 3, "y"⟩) =
      getTotalItems ⟨[⟨"a", "n", 5, 2, "im"⟩]⟩ + (⟨"a", "x", 7, 3, "y"⟩ : CartItem).quantity :=
  getTotalItems_addItem ⟨[⟨"a", "n", 5, 2, "im"⟩]⟩ ⟨"a", "x", 7, 3, "y"⟩ (by decide)

end EStorefront
